import Mathlib

/-
Shallow embedding of the token-eater game backend.

Source layout:
  * the socket.io game server (in-memory sessions, join / move handlers,
    collision resolution): modelled by `joinHandler` / `moveHandler` below;
  * `src/lib.ts` (settlement bridge to the TokenPool ledger): modelled by
    `handleUserEat` / `handleFoodEat` below.

Modelling conventions:
  * JavaScript objects used as string-keyed maps (`games`, `g.players`,
    `g.food`, the on-chain share mapping) become association lists in
    insertion order; `Object.values` / `Object.entries` iterate that order.
    Deleting a key is `List.filter`, updating a key is `List.map`.
  * JavaScript numbers are modelled as exact integers (`Int`).  Every
    quantity the claims touch (scores, radii, share amounts, the spec's
    concrete positions) is integer-valued; using `Int` instead of IEEE
    doubles keeps every definition executable and decidable.
  * A possibly-missing numeric field (`msg.x` on a malformed move) is a
    `JVal := Option Int`; `none` models `undefined`, whose arithmetic
    produces `NaN`, and every `NaN` comparison in JavaScript is false.
  * JavaScript `bigint` division truncates toward zero: `Int.tdiv`.
  * Randomness (`Math.random` based id / position / score generation) is an
    oracle passed explicitly to the handlers.
  * The external calls made by the move handler (the ledger settlement
    calls and the state broadcast) are returned as an `Event` list; the
    fire-and-forget webhook POST is not modelled (no claim mentions it).
-/

/-- A JavaScript numeric field that may be `undefined`: `none` models
`undefined` (whose arithmetic yields `NaN`, so every comparison involving it
is false), `some n` a numeric value. -/
abbrev JVal := Option Int

/-- Source: `const playerRadius = (score) => 10 + score`. -/
def playerRadius (score : Int) : Int := 10 + score

/-- Source: `const foodRadius = (score) => 10 + score`. -/
def foodRadius (score : Int) : Int := 10 + score

/-- Squared distance between two points, `none` when any coordinate is
`undefined` (the source's `Math.hypot(a.x-b.x, a.y-b.y)` is `NaN` then). -/
def distSq (x1 y1 x2 y2 : JVal) : Option Int :=
  match x1, y1, x2, y2 with
  | some a, some b, some c, some d => some ((a - c) ^ 2 + (b - d) ^ 2)
  | _, _, _, _ => none

/-- The source's collision test `dist(a, b) < r1 + r2` with
`dist = Math.hypot(a.x-b.x, a.y-b.y)`.  In exact arithmetic
`dist < r1 + r2` holds iff `0 < r1 + r2` and `dist^2 < (r1 + r2)^2`
(the distance is nonnegative), which is the executable form used here; a
`NaN` distance (any `undefined` coordinate) compares false. -/
def collideB (x1 y1 x2 y2 : JVal) (r1 r2 : Int) : Bool :=
  match distSq x1 y1 x2 y2 with
  | some d2 => decide (0 < r1 + r2) && decide (d2 < (r1 + r2) ^ 2)
  | none => false

/-- A session player, source shape
`{ name, x, y, score, walletAddress, socketId }` keyed by its id. -/
structure Player where
  id : String
  name : String
  x : JVal
  y : JVal
  score : Int
  walletAddress : String
  deriving DecidableEq

/-- A food entity, source shape `{ id, x, y, score }`. -/
structure FoodItem where
  id : String
  x : JVal
  y : JVal
  score : Int
  deriving DecidableEq

/-- One game session: `{ players, food }` maps in insertion order. -/
structure GameState where
  players : List Player
  food : List FoodItem
  deriving DecidableEq

/-- Externally visible effects of a handler, in emission order:
`transferShare loser winner` is `handleUserEat(loser, winner, gameId)`,
`foodSettle amount eater` is `handleFoodEat(food.score, walletAddress)`,
`broadcast gid` is `broadcastState(gameId)`. -/
inductive Event where
  | transferShare (loser winner : String)
  | foodSettle (amount : Int) (eater : String)
  | broadcast (gid : String)
  deriving DecidableEq

/-- One iteration of the food-collision loop
(`Object.values(g.food).forEach(food => ...)`): the accumulator carries the
mover's current score, the current food map and the events emitted so far;
on overlap the mover's score grows by the food's score, a settlement call is
emitted and the food is deleted from the map. -/
def eatFoodStep (px py : JVal) (wallet : String)
    (acc : Int × List FoodItem × List Event) (f : FoodItem) :
    Int × List FoodItem × List Event :=
  let (s, fs, ev) := acc
  if collideB px py f.x f.y (playerRadius s) (foodRadius f.score) then
    (s + f.score, fs.filter (fun g => g.id ≠ f.id),
      ev ++ [Event.foodSettle f.score wallet])
  else
    (s, fs, ev)

/-- One iteration of the player-collision loop
(`Object.entries(g.players).forEach(([otherId, other]) => ...)`): the
accumulator carries the mover's local record `p` (the source keeps a direct
reference to the mover object, which survives its own deletion from the
map), the current player map and the events so far.  The source's `return`
inside the `forEach` callback only ends the current iteration, so the fold
continues over the remaining snapshot entries even after the mover has been
deleted. -/
def eatPlayerStep (pid : String)
    (acc : Player × List Player × List Event) (o : Player) :
    Player × List Player × List Event :=
  let (p, ps, ev) := acc
  if o.id = pid then acc
  else if collideB p.x p.y o.x o.y (playerRadius p.score) (playerRadius o.score) then
    if p.score > o.score then
      let p' := { p with score := p.score + o.score }
      (p', (ps.map (fun q => if q.id = pid then p' else q)).filter
            (fun q => q.id ≠ o.id),
        ev ++ [Event.transferShare o.walletAddress p.walletAddress])
    else if p.score < o.score then
      let o' := { o with score := o.score + p.score }
      (p, (ps.map (fun q => if q.id = o.id then o' else q)).filter
            (fun q => q.id ≠ pid),
        ev ++ [Event.transferShare p.walletAddress o.walletAddress])
    else acc
  else acc

/-- Source: `g?.players[playerId]` lookup. -/
def findPlayer (ps : List Player) (pid : String) : Option Player :=
  ps.find? (fun p => p.id = pid)

/-- The `move` handler for an existing session, given the mover's id and the
message coordinates.  Mirrors the source: missing player is a no-op;
otherwise `Object.assign(player, {x, y})`, then the food pass over a
snapshot of `g.food`, then the player pass over a snapshot of `g.players`
(which sees the mover's post-food score).  Returns the new session state and
the emitted settlement events in order. -/
def moveHandler (g : GameState) (pid : String) (mx my : JVal) :
    GameState × List Event :=
  match findPlayer g.players pid with
  | none => (g, [])
  | some p0 =>
    let p1 := { p0 with x := mx, y := my }
    let players1 := g.players.map (fun q => if q.id = pid then p1 else q)
    let r1 := g.food.foldl (eatFoodStep mx my p1.walletAddress)
      (p1.score, g.food, [])
    let p2 := { p1 with score := r1.1 }
    let players2 := players1.map (fun q => if q.id = pid then p2 else q)
    let r2 := players2.foldl (eatPlayerStep pid) (p2, players2, r1.2.2)
    ({ players := r2.2.1, food := r1.2.1 }, r2.2.2)

/-- Sum of all live players' scores plus all live food scores in a session. -/
def scoreSum (g : GameState) : Int :=
  (g.players.map (fun p => p.score)).sum + (g.food.map (fun f => f.score)).sum

/-- Key-update semantics of `g.food[id] = f` on a JavaScript object:
replace the entry if the key exists, otherwise append. -/
def insertFood (fs : List FoodItem) (f : FoodItem) : List FoodItem :=
  if fs.any (fun g => g.id = f.id) then
    fs.map (fun g => if g.id = f.id then f else g)
  else fs ++ [f]

/-- Key-update semantics of `g.players[id] = p`. -/
def insertPlayer (ps : List Player) (p : Player) : List Player :=
  if ps.any (fun q => q.id = p.id) then
    ps.map (fun q => if q.id = p.id then p else q)
  else ps ++ [p]

/-- One draw of the food-spawning randomness: the id from `genId()`, the
position from `randPos()`, and the `Math.random()` value used by
`randScore`, represented exactly as the fraction `rNum / rDen`
(every IEEE double in `[0,1)` is such a fraction). -/
structure FoodSeed where
  id : String
  x : Int
  y : Int
  rNum : Int
  rDen : Int

/-- Source: `const randScore = () => Math.floor(Math.random() * 10) + 1`,
with the random draw given as the exact fraction `rNum / rDen`.  For
`rDen > 0`, Lean's `Int` euclidean division is exactly `Math.floor`. -/
def randScore (rNum rDen : Int) : Int := 10 * rNum / rDen + 1

/-- The food item built from one seed:
`g.food[id] = { id, ...randPos(), score: randScore() }`. -/
def foodOfSeed (s : FoodSeed) : FoodItem :=
  { id := s.id, x := some s.x, y := some s.y, score := randScore s.rNum s.rDen }

/-- Source: `Array.from({ length: 20 }, () => { const id = genId();
g.food[id] = { id, ...randPos(), score: randScore() } })` — twenty
key-updates into the (empty) food map, one per oracle draw. -/
def spawnFood (seed : Nat → FoodSeed) : List FoodItem :=
  (List.range 20).foldl (fun fs i => insertFood fs (foodOfSeed (seed i))) []

/-- The `join` message payload `{ gameId, name, walletAddress }`. -/
structure JoinMsg where
  gameId : String
  name : String
  walletAddress : String

/-- The process-wide `games` registry: session id to state, insertion order. -/
abbrev Registry := List (String × GameState)

/-- Source: `games[gameId]` lookup (first entry with the key, `none` when
absent). -/
def lookupGame : Registry → String → Option GameState
  | [], _ => none
  | e :: t, gid => if e.1 = gid then some e.2 else lookupGame t gid

/-- Key-update semantics of `games[gameId] = g`. -/
def setGame (games : Registry) (gid : String) (g : GameState) : Registry :=
  if games.any (fun e => e.1 = gid) then
    games.map (fun e => if e.1 = gid then (gid, g) else e)
  else games ++ [(gid, g)]

/-- The player record inserted by a join:
`g.players[playerId] = { name: msg.name, x: 500, y: 500, score: 0,
walletAddress: msg.walletAddress, socketId }`. -/
def newPlayer (pid : String) (msg : JoinMsg) : Player :=
  { id := pid, name := msg.name, x := some 500, y := some 500, score := 0,
    walletAddress := msg.walletAddress }

/-- The session state after a non-ignored join: the session is created if
absent (`games[gameId] = games[gameId] || { players: {}, food: {} }`), the
player is inserted, and the food pool is spawned iff the session's food map
is empty. -/
def joinedState (games : Registry) (msg : JoinMsg) (pid : String)
    (seed : Nat → FoodSeed) : GameState :=
  let g0 := (lookupGame games msg.gameId).getD { players := [], food := [] }
  let g1 := { g0 with players := insertPlayer g0.players (newPlayer pid msg) }
  match g1.food with
  | [] => { g1 with food := spawnFood seed }
  | _ => g1

/-- The `join` handler.  Mirrors the source: a falsy `walletAddress` (the
empty string) returns before touching anything; otherwise the session state
is updated as in `joinedState` and one state broadcast is emitted.  `pid` is
the oracle value of `genId()` for the new player and `seed` the
food-spawning oracle. -/
def joinHandler (games : Registry) (msg : JoinMsg) (pid : String)
    (seed : Nat → FoodSeed) : Registry × List Event :=
  if msg.walletAddress = "" then (games, [])
  else (setGame games msg.gameId (joinedState games msg pid seed),
    [Event.broadcast msg.gameId])

/-- Lowercasing as done by `addr.toLowerCase()` on hex addresses. -/
def lowerStr (s : String) : String := String.mk (s.data.map Char.toLower)

/-- A snapshot of the TokenPool per-address shares (`getUserInfo` per
depositor): address to share, insertion order.  An absent address has share
0 (the on-chain mapping default). -/
abbrev Ledger := List (String × Int)

/-- Share of `a` as read through `getUserInfo(a)`: the entry of the mapping
when present, the mapping default 0 otherwise. -/
def lookupShare : Ledger → String → Int
  | [], _ => 0
  | e :: t, a => if e.1 = a then e.2 else lookupShare t a

/-- The contract call `updateUserShare(a, v)`: set the mapping entry. -/
def updateUserShare (l : Ledger) (a : String) (v : Int) : Ledger :=
  if l.any (fun e => e.1 = a) then
    l.map (fun e => if e.1 = a then (a, v) else e)
  else l ++ [(a, v)]

/-- Source `handleUserEat(a, b)` in `src/lib.ts`: read `a`'s share; if it is
zero, throw (caught by the surrounding `try`/`catch` and logged — the
returned flag is `false` and the ledger is untouched); otherwise
`updateUserShare(a, 0)` then `updateUserShare(b, share)` — note the winner's
share is *set to* the loser's previous share, not incremented by it. -/
def handleUserEat (l : Ledger) (a b : String) : Ledger × Bool :=
  let share := lookupShare l a
  if share = 0 then (l, false)
  else (updateUserShare (updateUserShare l a 0) b share, true)

/-- The depositor shares after lowercasing every address
(`addr.toLowerCase()` in the `getUserInfo` fan-out). -/
def lowerShares (shares : Ledger) : Ledger :=
  shares.map (fun e => (lowerStr e.1, e.2))

/-- Source: `if (!existing) shares.push({ address: eaterLower, share: 0n })`
— ensure the (lowercased) eater has an entry. -/
def withEater (shares : Ledger) (eater : String) : Ledger :=
  if shares.any (fun e => e.1 = eater) then shares else shares ++ [(eater, 0)]

/-- Source: `othersTotal = shares.filter(s => s.address !== eaterLower)
.reduce((sum, s) => sum + s.share, 0n)`. -/
def othersTotal (shares : Ledger) (eater : String) : Int :=
  ((shares.filter (fun e => e.1 ≠ eater)).map (fun e => e.2)).sum

/-- Source: the rescaling `const food = (absoluteVal / foodAbs) * 100;
const x = BigInt(food)`.  The double division is modelled as exact rational
division; `BigInt` of a non-integer (or of the `Infinity` produced when
`totalDeposits` is 0) throws, which the `catch` turns into "no update", so
the result is `none` unless `totalDeposits ∣ 100 * absoluteVal`. -/
def rescaleAmount (absoluteVal totalDeposits : Int) : Option Int :=
  if totalDeposits = 0 then none
  else if 100 * absoluteVal % totalDeposits = 0 then
    some (100 * absoluteVal / totalDeposits)
  else none

/-- Source: the `updatedShares` map — the eater's entry gains `x`, every
other entry is scaled by `(othersTotal - x) / othersTotal` with bigint
division, which truncates toward zero (`Int.tdiv`). -/
def settledShares (shares : Ledger) (eaterL : String) (x : Int) : Ledger :=
  shares.map (fun e =>
    if e.1 = eaterL then (e.1, e.2 + x)
    else (e.1, Int.tdiv (e.2 * (othersTotal shares eaterL - x))
      (othersTotal shares eaterL)))

/-- Source `handleFoodEat(absoluteVal, eater)` in `src/lib.ts`, as a pure
function of the chain state it reads (`totalDeposits` and the depositor
shares).  Returns `some newShares` when the batch update
`updateSharesBatch(users, newShares)` is submitted, `none` when the run
aborts with an error (non-integer `BigInt` argument, `x > othersTotal`, or
the `RangeError` of a bigint division by a zero `othersTotal`). -/
def handleFoodEat (absoluteVal totalDeposits : Int) (shares0 : Ledger)
    (eater : String) : Option Ledger :=
  match rescaleAmount absoluteVal totalDeposits with
  | none => none
  | some x =>
    let shares := withEater (lowerShares shares0) (lowerStr eater)
    let oT := othersTotal shares (lowerStr eater)
    if x > oT then none
    else if oT = 0 ∧ shares.any (fun e => e.1 ≠ lowerStr eater) then none
    else some (settledShares shares (lowerStr eater) x)

/-- Modelled from the claim's words (C3), for comparison with the source's
`handleFoodEat`: the redistribution "adds that amount to the eater's share,
scales every other address's share by `(othersTotal - amount) / othersTotal`
with fractional results truncated toward zero, and if
`amount > othersTotal` it is rejected with no partial update". -/
def claimRedistribute (amount : Int) (shares0 : Ledger) (eater : String) :
    Option Ledger :=
  let eaterL := lowerStr eater
  let shares := withEater (lowerShares shares0) eaterL
  let oT := othersTotal shares eaterL
  if amount > oT then none
  else some (shares.map (fun e =>
    if e.1 = eaterL then (e.1, e.2 + amount)
    else (e.1, Int.tdiv (e.2 * (oT - amount)) oT)))

/-- Frame agreement for the move handler: `q` is the same entity as `q0`
with name, wallet and id intact, and with its position also intact unless it
is the mover. -/
def playerFrame (pid : String) (q0 q : Player) : Prop :=
  q0.id = q.id ∧ q0.name = q.name ∧ q0.walletAddress = q.walletAddress ∧
    (q.id ≠ pid → q0.x = q.x ∧ q0.y = q.y)

/-- Concrete scenario: mover with score 5. -/
def pAlice : Player :=
  { id := "p1", name := "A", x := some 500, y := some 500, score := 5,
    walletAddress := "0xa" }

/-- Concrete scenario: opponent with score 10. -/
def pBob : Player :=
  { id := "p2", name := "B", x := some 500, y := some 500, score := 10,
    walletAddress := "0xb" }

/-- Concrete scenario: opponent with score 3. -/
def pCarol : Player :=
  { id := "p3", name := "C", x := some 500, y := some 500, score := 3,
    walletAddress := "0xc" }

/-- Three mutually overlapping players, no food. -/
def gTriple : GameState := { players := [pAlice, pBob, pCarol], food := [] }

/-- A single-player session. -/
def gSolo : GameState := { players := [pAlice], food := [] }

/-- A concrete well-formed join message. -/
def msgJoin : JoinMsg := { gameId := "g1", name := "n", walletAddress := "0xw" }

/-- A score-4 food item at the spawn point. -/
def fSnack : FoodItem := { id := "f1", x := some 500, y := some 500, score := 4 }

/-- A session with one player and one overlapping food item. -/
def gSnack : GameState := { players := [pAlice], food := [fSnack] }

/-- A randomness oracle whose twenty id draws all collide. -/
def seedDup : Nat → FoodSeed :=
  fun _ => { id := "dup", x := 1, y := 2, rNum := 1, rDen := 2 }

/-- A randomness oracle with pairwise distinct id draws (the id of draw `i`
is the string of `i` repetitions of `x`). -/
def seedFresh : Nat → FoodSeed :=
  fun i => { id := String.mk (List.replicate i 'x'), x := 1, y := 2,
             rNum := 1, rDen := 2 }

/-- A fold whose step fixes every accumulator satisfying `P` leaves the
initial accumulator unchanged. -/
theorem foldl_fix {α β : Type} (step : β → α → β) (l : List α) (a : β)
    (P : β → Prop) (hP : P a) (h : ∀ acc b, P acc → step acc b = acc) :
    l.foldl step a = a := by
  induction l generalizing a with
  | nil => rfl
  | cons b t ih => rw [List.foldl_cons, h a b hP]; exact ih a hP

/-- Invariant preservation along a fold, with membership of the elements in
the folded list available to the step argument. -/
theorem foldl_inv {α β : Type} (step : β → α → β) (P : β → Prop) :
    ∀ (l : List α), (∀ b ∈ l, ∀ acc, P acc → P (step acc b)) →
      ∀ a, P a → P (l.foldl step a) := by
  intro l
  induction l with
  | nil => intro _ a hP; exact hP
  | cons b t ih =>
    intro h a hP
    rw [List.foldl_cons]
    exact ih (fun x hx acc hacc => h x (List.mem_cons_of_mem b hx) acc hacc) _
      (h b (List.mem_cons_self b t) a hP)

/-- An `undefined` coordinate on the first entity makes the collision test
false (`NaN` comparison). -/
theorem collideB_undef {x1 y1 : JVal} (h : x1 = none ∨ y1 = none)
    (x2 y2 : JVal) (r1 r2 : Int) : collideB x1 y1 x2 y2 r1 r2 = false := by
  rcases h with h | h <;> subst h
  · cases y1 <;> cases x2 <;> cases y2 <;> rfl
  · cases x1 <;> cases x2 <;> cases y2 <;> rfl

/-- Looking up the updated key after a key-replacing map. -/
theorem lookupShare_map_update (l : Ledger) (a : String) (v : Int)
    (h : l.any (fun e => e.1 = a) = true) :
    lookupShare (l.map (fun e => if e.1 = a then (a, v) else e)) a = v := by
  induction l with
  | nil => simp at h
  | cons e t ih =>
    by_cases he : e.1 = a
    · simp [lookupShare, he]
    · have h' : t.any (fun e => e.1 = a) = true := by
        simpa [List.any_cons, he] using h
      simp [lookupShare, he, ih h']

/-- Looking up a freshly appended key. -/
theorem lookupShare_append_new (l : Ledger) (a : String) (v : Int)
    (h : l.any (fun e => e.1 = a) = false) :
    lookupShare (l ++ [(a, v)]) a = v := by
  induction l with
  | nil => simp [lookupShare]
  | cons e t ih =>
    have he : ¬ (e.1 = a) := by
      intro hh
      simp [List.any_cons, hh] at h
    have h' : t.any (fun e => e.1 = a) = false := by
      simpa [List.any_cons, he] using h
    simp [lookupShare, he, ih h']

/-- A key-replacing map at key `a` leaves every other key's lookup alone. -/
theorem lookupShare_map_update_ne (l : Ledger) (a b : String) (v : Int)
    (hba : b ≠ a) :
    lookupShare (l.map (fun e => if e.1 = a then (a, v) else e)) b =
      lookupShare l b := by
  induction l with
  | nil => rfl
  | cons e t ih =>
    by_cases he : e.1 = a
    · have h1 : ¬ (a = b) := fun hh => hba hh.symm
      have h2 : ¬ (e.1 = b) := by rw [he]; exact h1
      simpa [lookupShare, he, h1, h2] using ih
    · by_cases heb : e.1 = b <;> simp [lookupShare, he, heb, hba, ih]

/-- Appending an entry with a different key leaves a key's lookup alone. -/
theorem lookupShare_append_ne (l : Ledger) (a b : String) (v : Int)
    (hba : b ≠ a) :
    lookupShare (l ++ [(a, v)]) b = lookupShare l b := by
  induction l with
  | nil =>
    show (if a = b then v else lookupShare [] b) = lookupShare [] b
    rw [if_neg (fun hh => hba (Eq.symm hh))]
  | cons e t ih => by_cases he : e.1 = b <;> simp [lookupShare, he, ih]

/-- Reading back the key just written by `updateUserShare`. -/
theorem lookupShare_update_self (l : Ledger) (a : String) (v : Int) :
    lookupShare (updateUserShare l a v) a = v := by
  unfold updateUserShare
  by_cases h : l.any (fun e => e.1 = a) = true
  · rw [if_pos h]; exact lookupShare_map_update l a v h
  · rw [if_neg h]
    exact lookupShare_append_new l a v (Bool.eq_false_iff.mpr h)

/-- `updateUserShare` at key `a` does not change the share read at `b ≠ a`. -/
theorem lookupShare_update_ne (l : Ledger) (a b : String) (v : Int)
    (hba : b ≠ a) :
    lookupShare (updateUserShare l a v) b = lookupShare l b := by
  unfold updateUserShare
  by_cases h : l.any (fun e => e.1 = a) = true
  · rw [if_pos h]; exact lookupShare_map_update_ne l a b v hba
  · rw [if_neg h]; exact lookupShare_append_ne l a b v hba

/-- C5: the collision radius is `radius(score) = 10 + score` for both
players and food, it is strictly increasing in the score, a collision is
triggered iff the (squared) distance is strictly below the (squared, with
positive sum) sum of radii, and at exact equality of distance and radius sum
no collision occurs. -/
theorem collision_rule_spec :
    (∀ s : Int, playerRadius s = 10 + s ∧ foodRadius s = 10 + s) ∧
    (∀ s t : Int, s < t → playerRadius s < playerRadius t) ∧
    (∀ (x1 y1 x2 y2 : JVal) (r1 r2 : Int),
      collideB x1 y1 x2 y2 r1 r2 = true ↔
        ∃ d2, distSq x1 y1 x2 y2 = some d2 ∧ 0 < r1 + r2 ∧
          d2 < (r1 + r2) ^ 2) ∧
    (∀ (x1 y1 x2 y2 : JVal) (r1 r2 d2 : Int),
      distSq x1 y1 x2 y2 = some d2 → d2 = (r1 + r2) ^ 2 →
      collideB x1 y1 x2 y2 r1 r2 = false) := by
  refine ⟨fun s => ⟨rfl, rfl⟩, fun s t h => by simp only [playerRadius]; omega,
    ?_, ?_⟩
  · intro x1 y1 x2 y2 r1 r2
    unfold collideB
    cases h : distSq x1 y1 x2 y2 with
    | none => simp
    | some d2 => simp [h]
  · intro x1 y1 x2 y2 r1 r2 d2 h he
    unfold collideB
    rw [h]
    simp [he]

/-- Witness for `collision_rule_spec` at concrete inputs: radii 15 and 20
(scores 5 and 10), distance exactly 35. -/
theorem collision_rule_spec_witness :
    playerRadius 3 < playerRadius 5 ∧
    collideB (some 0) (some 0) (some 35) (some 0)
      (playerRadius 5) (playerRadius 10) = false :=
  ⟨collision_rule_spec.2.1 3 5 (by decide),
    collision_rule_spec.2.2.2 (some 0) (some 0) (some 35) (some 0)
      (playerRadius 5) (playerRadius 10) (35 ^ 2) (by decide) (by decide)⟩

/-- C7: a join whose `walletAddress` is the empty string (falsy) is ignored
completely — the registry is untouched, no session is created, no player or
food is inserted, and no broadcast is emitted. -/
theorem join_blank_wallet_ignored (games : Registry) (msg : JoinMsg)
    (pid : String) (seed : Nat → FoodSeed) (hw : msg.walletAddress = "") :
    joinHandler games msg pid seed = (games, []) := by
  simp [joinHandler, hw]

/-- Witness for `join_blank_wallet_ignored`. -/
theorem join_blank_wallet_ignored_witness :
    joinHandler [] { gameId := "g", name := "n", walletAddress := "" } "p"
      seedDup = ([], []) :=
  join_blank_wallet_ignored [] _ "p" seedDup rfl

/-- C4: an equal-score pair in the player pass resolves to nothing — the
pass state (mover record, player map, emitted events) is exactly unchanged,
so neither player is removed or rescored and no transfer call is issued for
the pair, whether or not the two overlap. -/
theorem tie_pair_no_effect (pid : String) (p o : Player) (ps : List Player)
    (ev : List Event) (hne : ¬ (o.id = pid))
    (hcol : collideB p.x p.y o.x o.y (playerRadius p.score)
      (playerRadius o.score) = true)
    (heq : p.score = o.score) :
    eatPlayerStep pid (p, ps, ev) o = (p, ps, ev) := by
  have h1 : ¬ p.score > o.score := by omega
  have h2 : ¬ p.score < o.score := by omega
  simp [eatPlayerStep, hne, hcol, h1, h2]

/-- Witness for `tie_pair_no_effect`: two overlapping score-7 players. -/
theorem tie_pair_no_effect_witness :
    eatPlayerStep "p1"
      ({ pAlice with score := 7 }, [{ pAlice with score := 7 },
        { pBob with score := 7 }], [])
      { pBob with score := 7 } =
      ({ pAlice with score := 7 }, [{ pAlice with score := 7 },
        { pBob with score := 7 }], []) :=
  tie_pair_no_effect "p1" { pAlice with score := 7 } { pBob with score := 7 }
    _ _ (by decide) (by decide) (by decide)

/-- C2 (code evidence): in `gTriple` the mover (score 5) is eaten by the
score-10 opponent, yet the pass keeps running: the already-removed mover is
then compared against the score-3 player, eats it, and a second
`handleUserEat` call is issued — the `return` in the source's `forEach`
callback does not stop the pass. -/
theorem ghost_mover_keeps_colliding :
    (moveHandler gTriple "p1" (some 500) (some 500)).2 =
      [Event.transferShare "0xa" "0xb", Event.transferShare "0xc" "0xa"] ∧
    (moveHandler gTriple "p1" (some 500) (some 500)).1.players =
      [{ pBob with score := 15 }] := by decide

/-- C8 (code evidence): the same move drops the session's total score from
18 to 15 — the second consumption event removes the score-3 player but
credits its score to the already-removed mover, so the per-event
conservation of `scoreSum` fails. -/
theorem consumption_not_conservative :
    scoreSum gTriple = 18 ∧
    scoreSum (moveHandler gTriple "p1" (some 500) (some 500)).1 = 15 := by
  decide

/-- C9 (counterexample): a move whose `x` field is missing still mutates the
session — the mover's position becomes `(undefined, 7)` — so "no session
mutation" fails for malformed move payloads. -/
theorem malformed_move_mutates_state :
    (moveHandler gSolo "p1" none (some 7)).1 ≠ gSolo ∧
    (moveHandler gSolo "p1" none (some 7)).1.players =
      [{ pAlice with x := none, y := some 7 }] ∧
    (moveHandler gSolo "p1" none (some 7)).2 = [] := by decide

/-- C1 (counterexample): with loser share 3 and winner share 5, the
settlement succeeds and zeroes the loser, but the winner ends with share 3,
not with its previous share plus the loser's (5 + 3): `updateUserShare(b,
share)` overwrites the winner's balance instead of adding to it. -/
theorem transfer_not_additive :
    (handleUserEat [("0xl", 3), ("0xw", 5)] "0xl" "0xw").2 = true ∧
    lookupShare (handleUserEat [("0xl", 3), ("0xw", 5)] "0xl" "0xw").1
      "0xl" = 0 ∧
    lookupShare (handleUserEat [("0xl", 3), ("0xw", 5)] "0xl" "0xw").1
      "0xw" ≠ 5 + 3 := by decide

/-- C3 (counterexample): with `totalDeposits = 4`, eating a score-1 food
credits the eater with `BigInt((1 / 4) * 100) = 25` share units, not 1, and
scales the other depositor from 100 to 75, not to 99 as the claim's formula
(amount = food score) predicts. -/
theorem redistribute_rescales_amount :
    handleFoodEat 1 4 [("0xe", 0), ("0xo", 100)] "0xe" =
      some [("0xe", 25), ("0xo", 75)] ∧
    handleFoodEat 1 4 [("0xe", 0), ("0xo", 100)] "0xe" ≠
      claimRedistribute 1 [("0xe", 0), ("0xo", 100)] "0xe" := by decide

/-- C6 (counterexample): when the twenty `genId()` draws collide (all equal
to `"dup"` here), the respawn leaves a single food entity, not twenty — the
spawn loop writes all twenty items under the same key. -/
theorem join_respawn_id_collision :
    (lookupGame (joinHandler [] msgJoin "p" seedDup).1 "g1").map
      (fun g => g.food.length) = some 1 ∧
    (lookupGame (joinHandler [] msgJoin "p" seedDup).1 "g1").map
      (fun g => g.food.length) ≠ some 20 := by decide

/-- C1 (amended): for distinct wallets and a loser with a non-zero share,
the settlement succeeds, zeroes the loser and sets the winner's share to the
loser's previous share (overwriting the winner's previous balance); a
zero-share loser is rejected as an error, with the ledger untouched and no
crash. -/
theorem transfer_share_spec (l : Ledger) (a b : String) :
    (a ≠ b → lookupShare l a ≠ 0 →
      (handleUserEat l a b).2 = true ∧
      lookupShare (handleUserEat l a b).1 a = 0 ∧
      lookupShare (handleUserEat l a b).1 b = lookupShare l a) ∧
    (lookupShare l a = 0 → handleUserEat l a b = (l, false)) := by
  constructor
  · intro hab hne
    simp only [handleUserEat]
    rw [if_neg hne]
    refine ⟨rfl, ?_, ?_⟩
    · rw [lookupShare_update_ne _ b a _ hab,
        lookupShare_update_self l a 0]
    · rw [lookupShare_update_self]
  · intro h0
    simp only [handleUserEat]
    rw [if_pos h0]

/-- Witness for `transfer_share_spec`: a successful transfer from a share-3
loser to a share-5 winner, and a rejected transfer from a share-0 loser. -/
theorem transfer_share_spec_witness :
    ((handleUserEat [("0xa", 3), ("0xb", 5)] "0xa" "0xb").2 = true ∧
      lookupShare (handleUserEat [("0xa", 3), ("0xb", 5)] "0xa" "0xb").1
        "0xa" = 0 ∧
      lookupShare (handleUserEat [("0xa", 3), ("0xb", 5)] "0xa" "0xb").1
        "0xb" = lookupShare [("0xa", 3), ("0xb", 5)] "0xa") ∧
    handleUserEat [("0xz", 0)] "0xz" "0xb" = ([("0xz", 0)], false) :=
  ⟨(transfer_share_spec [("0xa", 3), ("0xb", 5)] "0xa" "0xb").1 (by decide)
      (by decide),
    (transfer_share_spec [("0xz", 0)] "0xz" "0xb").2 (by decide)⟩

/-- A successful player lookup returns a player whose id is the looked-up
key. -/
theorem findPlayer_some_id {ps : List Player} {pid : String} {p : Player}
    (h : findPlayer ps pid = some p) : p.id = pid := by
  have := List.find?_some h
  simpa using this

/-- A successful player lookup returns a member of the list. -/
theorem findPlayer_some_mem {ps : List Player} {pid : String} {p : Player}
    (h : findPlayer ps pid = some p) : p ∈ ps :=
  List.mem_of_find?_eq_some h

/-- Unfolding of the move handler when the mover exists. -/
theorem moveHandler_some (g : GameState) (pid : String) (mx my : JVal)
    (p0 : Player) (hf : findPlayer g.players pid = some p0) :
    moveHandler g pid mx my =
      (let p1 := { p0 with x := mx, y := my }
       let players1 := g.players.map (fun q => if q.id = pid then p1 else q)
       let r1 := g.food.foldl (eatFoodStep mx my p1.walletAddress)
         (p1.score, g.food, [])
       let p2 := { p1 with score := r1.1 }
       let players2 := players1.map (fun q => if q.id = pid then p2 else q)
       let r2 := players2.foldl (eatPlayerStep pid) (p2, players2, r1.2.2)
       ({ players := r2.2.1, food := r1.2.1 }, r2.2.2)) := by
  unfold moveHandler
  rw [hf]

/-- A food-pass step with an `undefined` mover coordinate does nothing. -/
theorem eatFoodStep_undef {mx my : JVal} (h : mx = none ∨ my = none)
    (w : String) (acc : Int × List FoodItem × List Event) (f : FoodItem) :
    eatFoodStep mx my w acc f = acc := by
  obtain ⟨s, fs, ev⟩ := acc
  simp [eatFoodStep, collideB_undef h]

/-- A player-pass step with an `undefined` mover coordinate does nothing. -/
theorem eatPlayerStep_undef {p : Player} (h : p.x = none ∨ p.y = none)
    (pid : String) (ps : List Player) (ev : List Event) (o : Player) :
    eatPlayerStep pid (p, ps, ev) o = (p, ps, ev) := by
  by_cases ho : o.id = pid
  · simp [eatPlayerStep, ho]
  · simp [eatPlayerStep, ho, collideB_undef h]

/-- C9 (amended): a move for a missing player id leaves the session exactly
unchanged with no settlement calls, and a move whose payload lacks a numeric
`x` or `y` does not crash and produces no collision or settlement — but it
does overwrite the mover's position with the malformed values. -/
theorem move_guard_spec (g : GameState) (pid : String) (mx my : JVal) :
    (findPlayer g.players pid = none → moveHandler g pid mx my = (g, [])) ∧
    ((mx = none ∨ my = none) → ∀ p0, findPlayer g.players pid = some p0 →
      moveHandler g pid mx my =
        ({ players := g.players.map
            (fun q => if q.id = pid then { p0 with x := mx, y := my } else q),
           food := g.food }, [])) := by
  constructor
  · intro h
    unfold moveHandler
    rw [h]
  · intro hu p0 hf
    have hid0 : p0.id = pid := findPlayer_some_id hf
    rw [moveHandler_some g pid mx my p0 hf]
    dsimp only
    have hfood : g.food.foldl (eatFoodStep mx my p0.walletAddress)
        (p0.score, g.food, []) = (p0.score, g.food, []) :=
      foldl_fix _ _ _ (fun _ => True) trivial
        (fun acc b _ => eatFoodStep_undef hu _ acc b)
    rw [hfood]
    dsimp only
    have hplay : ∀ (l ps : List Player) (ev : List Event),
        l.foldl (eatPlayerStep pid)
          (({ p0 with x := mx, y := my } : Player), ps, ev) =
          (({ p0 with x := mx, y := my } : Player), ps, ev) := by
      intro l ps ev
      refine foldl_fix _ _ _
        (fun acc => acc.1.x = none ∨ acc.1.y = none) hu ?_
      intro acc b hacc
      obtain ⟨p, ps', ev'⟩ := acc
      exact eatPlayerStep_undef hacc pid ps' ev' b
    rw [hplay]
    have hmaps : (g.players.map (fun q => if q.id = pid then
          ({ p0 with x := mx, y := my } : Player) else q)).map
        (fun q => if q.id = pid then
          ({ p0 with x := mx, y := my } : Player) else q) =
        g.players.map (fun q => if q.id = pid then
          ({ p0 with x := mx, y := my } : Player) else q) := by
      rw [List.map_map]
      apply List.map_congr_left
      intro q _
      by_cases hq : q.id = pid
      · simp [Function.comp, hq, hid0]
      · simp [Function.comp, hq]
    rw [hmaps]

/-- Witness for `move_guard_spec`: a move for the absent id `"zz"` is a
no-op, and a malformed move for `"p1"` only overwrites the position. -/
theorem move_guard_spec_witness :
    moveHandler gSolo "zz" (some 1) (some 2) = (gSolo, []) ∧
    moveHandler gSolo "p1" none (some 7) =
      ({ players := [{ pAlice with x := none, y := some 7 }],
         food := [] }, []) :=
  ⟨(move_guard_spec gSolo "zz" (some 1) (some 2)).1 (by decide),
    ((move_guard_spec gSolo "p1" none (some 7)).2 (Or.inl rfl) pAlice
      (by decide)).trans (by decide)⟩

/-- Reading back the session just written by `setGame`, existing key case. -/
theorem lookupGame_map_set (games : Registry) (gid : String) (g : GameState)
    (h : games.any (fun e => e.1 = gid) = true) :
    lookupGame (games.map (fun e => if e.1 = gid then (gid, g) else e)) gid =
      some g := by
  induction games with
  | nil => simp at h
  | cons e t ih =>
    by_cases he : e.1 = gid
    · simp [lookupGame, he]
    · have h' : t.any (fun e => e.1 = gid) = true := by
        simpa [List.any_cons, he] using h
      simp [lookupGame, he, ih h']

/-- Reading back the session just written by `setGame`, fresh key case. -/
theorem lookupGame_append_new (games : Registry) (gid : String)
    (g : GameState) (h : games.any (fun e => e.1 = gid) = false) :
    lookupGame (games ++ [(gid, g)]) gid = some g := by
  induction games with
  | nil => simp [lookupGame]
  | cons e t ih =>
    have he : ¬ (e.1 = gid) := by
      intro hh
      simp [List.any_cons, hh] at h
    have h' : t.any (fun e => e.1 = gid) = false := by
      simpa [List.any_cons, he] using h
    simp [lookupGame, he, ih h']

/-- Reading back the session just written by `setGame`. -/
theorem lookupGame_set_self (games : Registry) (gid : String)
    (g : GameState) :
    lookupGame (setGame games gid g) gid = some g := by
  unfold setGame
  by_cases h : games.any (fun e => e.1 = gid) = true
  · rw [if_pos h]; exact lookupGame_map_set games gid g h
  · rw [if_neg h]
    exact lookupGame_append_new games gid g (Bool.eq_false_iff.mpr h)

/-- Inserting a food item under a key that is not yet present appends it. -/
theorem insertFood_fresh (fs : List FoodItem) (f : FoodItem)
    (h : fs.any (fun g => g.id = f.id) = false) :
    insertFood fs f = fs ++ [f] := by
  unfold insertFood
  rw [if_neg (by simp [h])]

/-- The spawn loop over pairwise distinct seed ids builds one entity per
iteration: after `n` iterations the map has `n` entries, each one the food
item of its seed. -/
theorem spawnFood_aux (seed : Nat → FoodSeed) (n : Nat)
    (hids : ∀ i, i < n → ∀ j, j < n → i ≠ j → (seed i).id ≠ (seed j).id) :
    ((List.range n).foldl
      (fun fs i => insertFood fs (foodOfSeed (seed i))) []).length = n ∧
    ∀ f ∈ (List.range n).foldl
      (fun fs i => insertFood fs (foodOfSeed (seed i))) [],
      ∃ i, i < n ∧ f = foodOfSeed (seed i) := by
  induction n with
  | zero => simp
  | succ n ih =>
    obtain ⟨hlen, hmem⟩ :=
      ih (fun i hi j hj hne => hids i (by omega) j (by omega) hne)
    rw [List.range_succ, List.foldl_append, List.foldl_cons, List.foldl_nil]
    have hfresh : ((List.range n).foldl
        (fun fs i => insertFood fs (foodOfSeed (seed i))) []).any
        (fun g => g.id = (foodOfSeed (seed n)).id) = false := by
      rw [List.any_eq_false]
      intro f hf
      obtain ⟨i, hi, rfl⟩ := hmem f hf
      simp only [foodOfSeed, decide_eq_true_eq]
      exact hids i (by omega) n (by omega) (by omega)
    rw [insertFood_fresh _ _ hfresh]
    constructor
    · simp [hlen]
    · intro f hf
      rcases List.mem_append.mp hf with h | h
      · obtain ⟨i, hi, rfl⟩ := hmem f h
        exact ⟨i, by omega, rfl⟩
      · simp only [List.mem_singleton] at h
        exact ⟨n, by omega, h⟩

/-- The spawned food score is in `[1, 10]` whenever the random draw `n / d`
lies in `[0, 1)`. -/
theorem randScore_bounds (n d : Int) (h0 : 0 ≤ n) (hd : n < d) :
    1 ≤ randScore n d ∧ randScore n d ≤ 10 := by
  unfold randScore
  have hdpos : 0 < d := lt_of_le_of_lt h0 hd
  constructor
  · have h1 : 0 ≤ 10 * n / d := Int.ediv_nonneg (by omega) (by omega)
    omega
  · have h2 : 10 * n / d < 10 := by
      rw [Int.ediv_lt_iff_lt_mul hdpos]
      omega
    omega

/-- The session written by a non-ignored join is read back by a lookup. -/
theorem joinHandler_lookup (games : Registry) (msg : JoinMsg) (pid : String)
    (seed : Nat → FoodSeed) (hw : ¬ msg.walletAddress = "") :
    lookupGame (joinHandler games msg pid seed).1 msg.gameId =
      some (joinedState games msg pid seed) := by
  simp only [joinHandler, if_neg hw]
  exact lookupGame_set_self games msg.gameId (joinedState games msg pid seed)

/-- When the session's food map is observed empty, the joined state's food
is the freshly spawned batch. -/
theorem joinedState_food_spawn (games : Registry) (msg : JoinMsg)
    (pid : String) (seed : Nat → FoodSeed)
    (hempty : ((lookupGame games msg.gameId).getD ⟨[], []⟩).food = []) :
    (joinedState games msg pid seed).food = spawnFood seed := by
  unfold joinedState
  dsimp only
  rw [hempty]

/-- When the session's food map is observed non-empty, the joined state's
food is exactly the old food map. -/
theorem joinedState_food_keep (games : Registry) (msg : JoinMsg)
    (pid : String) (seed : Nat → FoodSeed)
    (hne : ((lookupGame games msg.gameId).getD ⟨[], []⟩).food ≠ []) :
    (joinedState games msg pid seed).food =
      ((lookupGame games msg.gameId).getD ⟨[], []⟩).food := by
  unfold joinedState
  dsimp only
  cases h : ((lookupGame games msg.gameId).getD
      (⟨[], []⟩ : GameState)).food with
  | nil => exact absurd h hne
  | cons f t => dsimp only

/-- C6 (amended): a join with a non-empty wallet that observes an empty food
set leaves the session with exactly 20 food entities — provided the twenty
id draws are pairwise distinct — each with an integer score in `[1, 10]`
(given random draws in `[0, 1)`); a join while the food set is non-empty
leaves the food exactly as it was. -/
theorem join_food_spawn (games : Registry) (msg : JoinMsg) (pid : String)
    (seed : Nat → FoodSeed) (hw : ¬ msg.walletAddress = "")
    (hids : ∀ i, i < 20 → ∀ j, j < 20 → i ≠ j → (seed i).id ≠ (seed j).id)
    (hr : ∀ i, i < 20 → 0 ≤ (seed i).rNum ∧ (seed i).rNum < (seed i).rDen) :
    (((lookupGame games msg.gameId).getD ⟨[], []⟩).food = [] →
      ∃ g', lookupGame (joinHandler games msg pid seed).1 msg.gameId =
          some g' ∧
        g'.food.length = 20 ∧ ∀ f ∈ g'.food, 1 ≤ f.score ∧ f.score ≤ 10) ∧
    (((lookupGame games msg.gameId).getD ⟨[], []⟩).food ≠ [] →
      ∃ g', lookupGame (joinHandler games msg pid seed).1 msg.gameId =
          some g' ∧
        g'.food = ((lookupGame games msg.gameId).getD ⟨[], []⟩).food) := by
  constructor
  · intro hempty
    refine ⟨joinedState games msg pid seed,
      joinHandler_lookup games msg pid seed hw, ?_, ?_⟩
    · rw [joinedState_food_spawn games msg pid seed hempty]
      exact (spawnFood_aux seed 20 hids).1
    · intro f hf
      rw [joinedState_food_spawn games msg pid seed hempty] at hf
      obtain ⟨i, hi, rfl⟩ := (spawnFood_aux seed 20 hids).2 f hf
      exact randScore_bounds (seed i).rNum (seed i).rDen (hr i hi).1
        (hr i hi).2
  · intro hne
    exact ⟨joinedState games msg pid seed,
      joinHandler_lookup games msg pid seed hw,
      joinedState_food_keep games msg pid seed hne⟩

/-- Witness for `join_food_spawn`: a join into the empty registry with
pairwise distinct seed ids yields a session with 20 food items with scores
in range. -/
theorem join_food_spawn_witness :
    ∃ g', lookupGame (joinHandler [] msgJoin "p" seedFresh).1
        msgJoin.gameId = some g' ∧
      g'.food.length = 20 ∧ ∀ f ∈ g'.food, 1 ≤ f.score ∧ f.score ≤ 10 :=
  (join_food_spawn [] msgJoin "p" seedFresh (by decide)
    (by
      intro i _ j _ hne heq
      apply hne
      have hlen := congrArg (fun s => s.data.length) heq
      simpa [seedFresh] using hlen)
    (by
      intro i _
      constructor
      · show (0 : Int) ≤ 1
        decide
      · show (1 : Int) < 2
        decide)).1 (by decide)

/-- Lookup through an entry-wise, key-preserving map whose transform fixes
the default 0 at the looked-up key. -/
theorem lookupShare_map_entry (l : Ledger) (w : String)
    (F : String → Int → Int) (h0 : F w 0 = 0) :
    lookupShare (l.map (fun e => (e.1, F e.1 e.2))) w =
      F w (lookupShare l w) := by
  induction l with
  | nil => simpa [lookupShare] using h0.symm
  | cons e t ih =>
    by_cases he : e.1 = w
    · simp [lookupShare, he]
    · simp [lookupShare, he, ih]

/-- Lookup through an entry-wise, key-preserving map at a present key. -/
theorem lookupShare_map_entry_present (l : Ledger) (w : String)
    (F : String → Int → Int) (h : l.any (fun e => e.1 = w) = true) :
    lookupShare (l.map (fun e => (e.1, F e.1 e.2))) w =
      F w (lookupShare l w) := by
  induction l with
  | nil => simp at h
  | cons e t ih =>
    by_cases he : e.1 = w
    · simp [lookupShare, he]
    · have h' : t.any (fun e => e.1 = w) = true := by
        simpa [List.any_cons, he] using h
      simp [lookupShare, he, ih h']

/-- The eater always has an entry after `withEater`. -/
theorem withEater_any (l : Ledger) (a : String) :
    (withEater l a).any (fun e => e.1 = a) = true := by
  unfold withEater
  by_cases h : l.any (fun e => e.1 = a) = true
  · rw [if_pos h]; exact h
  · rw [if_neg h]
    simp [List.any_append]

/-- `settledShares` in entry-wise form. -/
theorem settledShares_eq_map (shares : Ledger) (eaterL : String) (x : Int) :
    settledShares shares eaterL x = shares.map (fun e =>
      (e.1, if e.1 = eaterL then e.2 + x
        else Int.tdiv (e.2 * (othersTotal shares eaterL - x))
          (othersTotal shares eaterL))) := by
  unfold settledShares
  apply List.map_congr_left
  intro e _
  by_cases he : e.1 = eaterL <;> simp [he]

/-- The eater's post-settlement share is its previous share plus `x`. -/
theorem settledShares_lookup_eater (shares : Ledger) (eaterL : String)
    (x : Int) (h : shares.any (fun e => e.1 = eaterL) = true) :
    lookupShare (settledShares shares eaterL x) eaterL =
      lookupShare shares eaterL + x := by
  rw [settledShares_eq_map]
  have hm := lookupShare_map_entry_present shares eaterL
    (fun a b => if a = eaterL then b + x
      else Int.tdiv (b * (othersTotal shares eaterL - x))
        (othersTotal shares eaterL)) h
  simpa using hm

/-- Every other address's post-settlement share is scaled by
`(othersTotal - x) / othersTotal`, truncated toward zero. -/
theorem settledShares_lookup_other (shares : Ledger) (eaterL w : String)
    (x : Int) (hw : w ≠ eaterL) :
    lookupShare (settledShares shares eaterL x) w =
      Int.tdiv (lookupShare shares w * (othersTotal shares eaterL - x))
        (othersTotal shares eaterL) := by
  rw [settledShares_eq_map]
  have hm := lookupShare_map_entry shares w
    (fun a b => if a = eaterL then b + x
      else Int.tdiv (b * (othersTotal shares eaterL - x))
        (othersTotal shares eaterL))
    (by simp [hw, Int.zero_tdiv])
  simpa [hw] using hm

/-- Events produced by the food pass extend the incoming list only with
`foodSettle` calls carrying a present food's score and the mover's wallet. -/
theorem foodPass_events (px py : JVal) (w : String) :
    ∀ (l : List FoodItem) (acc : Int × List FoodItem × List Event),
      ∀ e ∈ (l.foldl (eatFoodStep px py w) acc).2.2,
        e ∈ acc.2.2 ∨ ∃ f ∈ l, e = Event.foodSettle f.score w := by
  intro l
  induction l with
  | nil => intro acc e he; exact Or.inl he
  | cons b t ih =>
    intro acc e he
    rw [List.foldl_cons] at he
    rcases ih (eatFoodStep px py w acc b) e he with h | ⟨f, hf, rfl⟩
    · obtain ⟨s, fs, ev⟩ := acc
      unfold eatFoodStep at h
      dsimp only at h
      split at h
      · rcases List.mem_append.mp h with h1 | h1
        · exact Or.inl h1
        · simp only [List.mem_singleton] at h1
          exact Or.inr ⟨b, List.mem_cons_self b t, h1⟩
      · exact Or.inl h
    · exact Or.inr ⟨f, List.mem_cons_of_mem b hf, rfl⟩

/-- Events produced by the player pass extend the incoming list only with
`transferShare` calls. -/
theorem playerPass_events (pid : String) :
    ∀ (l : List Player) (acc : Player × List Player × List Event),
      ∀ e ∈ (l.foldl (eatPlayerStep pid) acc).2.2,
        e ∈ acc.2.2 ∨ ∃ a b, e = Event.transferShare a b := by
  intro l
  induction l with
  | nil => intro acc e he; exact Or.inl he
  | cons b t ih =>
    intro acc e he
    rw [List.foldl_cons] at he
    rcases ih (eatPlayerStep pid acc b) e he with h | h
    · obtain ⟨p, ps, ev⟩ := acc
      unfold eatPlayerStep at h
      dsimp only at h
      split at h
      · exact Or.inl h
      · split at h
        · split at h
          · rcases List.mem_append.mp h with h1 | h1
            · exact Or.inl h1
            · simp only [List.mem_singleton] at h1
              exact Or.inr ⟨_, _, h1⟩
          · split at h
            · rcases List.mem_append.mp h with h1 | h1
              · exact Or.inl h1
              · simp only [List.mem_singleton] at h1
                exact Or.inr ⟨_, _, h1⟩
            · exact Or.inl h
        · exact Or.inl h
    · exact Or.inr h

/-- C3 (amended): the settlement bridge only issues food-settlement calls
carrying an eaten food's score and the mover's wallet; on the ledger side,
the amount is first rescaled to `x = BigInt((amount / totalDeposits) * 100)`
(the run aborts with no update when that is not an integer); an `x` above
`othersTotal` is rejected with no partial update, and otherwise the eater
gains exactly `x` (not the food score) while every other address is scaled
by `(othersTotal - x) / othersTotal`, truncated toward zero. -/
theorem handleFoodEat_spec (absoluteVal totalDeposits : Int)
    (shares0 : Ledger) (eater : String) (x : Int)
    (hra : rescaleAmount absoluteVal totalDeposits = some x) :
    (∀ (g : GameState) (pid : String) (mx my : JVal) (am : Int) (w : String),
      Event.foodSettle am w ∈ (moveHandler g pid mx my).2 →
        (∃ p0, findPlayer g.players pid = some p0 ∧ w = p0.walletAddress) ∧
        ∃ f ∈ g.food, am = f.score) ∧
    (x > othersTotal (withEater (lowerShares shares0) (lowerStr eater))
        (lowerStr eater) →
      handleFoodEat absoluteVal totalDeposits shares0 eater = none) ∧
    (0 < othersTotal (withEater (lowerShares shares0) (lowerStr eater))
        (lowerStr eater) →
     x ≤ othersTotal (withEater (lowerShares shares0) (lowerStr eater))
        (lowerStr eater) →
      handleFoodEat absoluteVal totalDeposits shares0 eater =
        some (settledShares (withEater (lowerShares shares0) (lowerStr eater))
          (lowerStr eater) x) ∧
      lookupShare (settledShares (withEater (lowerShares shares0)
          (lowerStr eater)) (lowerStr eater) x) (lowerStr eater) =
        lookupShare (withEater (lowerShares shares0) (lowerStr eater))
          (lowerStr eater) + x ∧
      ∀ w, w ≠ lowerStr eater →
        lookupShare (settledShares (withEater (lowerShares shares0)
            (lowerStr eater)) (lowerStr eater) x) w =
          Int.tdiv (lookupShare (withEater (lowerShares shares0)
              (lowerStr eater)) w *
            (othersTotal (withEater (lowerShares shares0) (lowerStr eater))
              (lowerStr eater) - x))
            (othersTotal (withEater (lowerShares shares0) (lowerStr eater))
              (lowerStr eater))) := by
  refine ⟨?_, ?_, ?_⟩
  · intro g pid mx my am w hmem
    cases hf : findPlayer g.players pid with
    | none =>
      unfold moveHandler at hmem
      rw [hf] at hmem
      simp at hmem
    | some p0 =>
      rw [moveHandler_some g pid mx my p0 hf] at hmem
      dsimp only at hmem
      rcases playerPass_events pid _ _ _ hmem with h | ⟨a, b, hab⟩
      · rcases foodPass_events mx my p0.walletAddress g.food _ _ h with
          h1 | ⟨f, hfm, hfe⟩
        · simp at h1
        · rw [Event.foodSettle.injEq] at hfe
          exact ⟨⟨p0, rfl, hfe.2⟩, f, hfm, hfe.1⟩
      · exact absurd hab (by simp)
  · intro hgt
    unfold handleFoodEat
    rw [hra]
    dsimp only
    rw [if_pos hgt]
  · intro hpos hle
    unfold handleFoodEat
    rw [hra]
    dsimp only
    rw [if_neg (not_lt.mpr hle), if_neg (by rintro ⟨h0, -⟩; omega)]
    exact ⟨rfl,
      settledShares_lookup_eater _ _ _ (withEater_any _ _),
      fun w hw => settledShares_lookup_other _ _ w x hw⟩

/-- Witness for `handleFoodEat_spec`: a score-4 food eaten by the mover
emits `foodSettle 4 "0xa"`; with `totalDeposits = 2` a score-500 food
rescales to 25000 > 100 and is rejected; with `totalDeposits = 4` a score-1
food rescales to 25 and is redistributed. -/
theorem handleFoodEat_spec_witness :
    ((∃ p0, findPlayer gSnack.players "p1" = some p0 ∧
        "0xa" = p0.walletAddress) ∧ ∃ f ∈ gSnack.food, 4 = f.score) ∧
    handleFoodEat 500 2 [("a", 0), ("b", 100)] "a" = none ∧
    handleFoodEat 1 4 [("a", 0), ("b", 100)] "a" =
      some (settledShares (withEater (lowerShares [("a", 0), ("b", 100)])
        (lowerStr "a")) (lowerStr "a") 25) :=
  ⟨(handleFoodEat_spec 1 4 [("a", 0), ("b", 100)] "a" 25 (by decide)).1
      gSnack "p1" (some 500) (some 500) 4 "0xa" (by decide),
    (handleFoodEat_spec 500 2 [("a", 0), ("b", 100)] "a" 25000
      (by decide)).2.1 (by decide),
    ((handleFoodEat_spec 1 4 [("a", 0), ("b", 100)] "a" 25
      (by decide)).2.2 (by decide) (by decide)).1⟩

/-- A food-pass step never adds food: the resulting food map is a subset of
the incoming one. -/
theorem eatFoodStep_food_sub (px py : JVal) (w : String)
    (acc : Int × List FoodItem × List Event) (b : FoodItem) :
    ∀ f ∈ (eatFoodStep px py w acc b).2.1, f ∈ acc.2.1 := by
  obtain ⟨s, fs, ev⟩ := acc
  intro f hf
  unfold eatFoodStep at hf
  dsimp only at hf
  split at hf
  · exact List.mem_of_mem_filter hf
  · exact hf

/-- The whole food pass never adds food. -/
theorem foodPass_sub (px py : JVal) (w : String) (l : List FoodItem)
    (s : Int) (fs : List FoodItem) (ev : List Event) :
    ∀ f ∈ (l.foldl (eatFoodStep px py w) (s, fs, ev)).2.1, f ∈ fs := by
  exact foldl_inv (eatFoodStep px py w) (fun acc => ∀ f ∈ acc.2.1, f ∈ fs) l
    (fun b _ acc hacc f hf => hacc f (eatFoodStep_food_sub px py w acc b f hf))
    (s, fs, ev) (fun f hf => hf)

/-- A player-pass step preserves the frame invariant: the carried mover
keeps id `pid` and the original name and wallet, and every map entry stays
frame-related to an original player. -/
theorem eatPlayerStep_frame (g : GameState) (pid : String) (p0 : Player)
    (hid0 : p0.id = pid) (hp0 : p0 ∈ g.players) (o : Player)
    (ho : ∃ q0 ∈ g.players, playerFrame pid q0 o)
    (acc : Player × List Player × List Event)
    (hacc : (acc.1.id = pid ∧ acc.1.name = p0.name ∧
        acc.1.walletAddress = p0.walletAddress) ∧
      ∀ q ∈ acc.2.1, ∃ q0 ∈ g.players, playerFrame pid q0 q) :
    ((eatPlayerStep pid acc o).1.id = pid ∧
      (eatPlayerStep pid acc o).1.name = p0.name ∧
      (eatPlayerStep pid acc o).1.walletAddress = p0.walletAddress) ∧
    ∀ q ∈ (eatPlayerStep pid acc o).2.1,
      ∃ q0 ∈ g.players, playerFrame pid q0 q := by
  obtain ⟨p, ps, ev⟩ := acc
  obtain ⟨⟨hpid, hpname, hpwallet⟩, hps⟩ := hacc
  unfold eatPlayerStep
  dsimp only
  by_cases hoid : o.id = pid
  · rw [if_pos hoid]
    exact ⟨⟨hpid, hpname, hpwallet⟩, hps⟩
  rw [if_neg hoid]
  by_cases hc : collideB p.x p.y o.x o.y (playerRadius p.score)
      (playerRadius o.score) = true
  · rw [if_pos hc]
    by_cases h1 : p.score > o.score
    · rw [if_pos h1]
      dsimp only
      refine ⟨⟨hpid, hpname, hpwallet⟩, ?_⟩
      intro q hq
      obtain ⟨q', hq', hq'eq⟩ := List.mem_map.mp (List.mem_of_mem_filter hq)
      by_cases hq'id : q'.id = pid
      · rw [if_pos hq'id] at hq'eq
        subst hq'eq
        exact ⟨p0, hp0, hid0.trans hpid.symm, hpname.symm, hpwallet.symm,
          fun hcon => absurd hpid hcon⟩
      · rw [if_neg hq'id] at hq'eq
        subst hq'eq
        exact hps q' hq'
    · rw [if_neg h1]
      by_cases h2 : p.score < o.score
      · rw [if_pos h2]
        dsimp only
        refine ⟨⟨hpid, hpname, hpwallet⟩, ?_⟩
        intro q hq
        obtain ⟨q', hq', hq'eq⟩ := List.mem_map.mp (List.mem_of_mem_filter hq)
        by_cases hq'o : q'.id = o.id
        · rw [if_pos hq'o] at hq'eq
          subst hq'eq
          obtain ⟨q0, hq0mem, hfr⟩ := ho
          exact ⟨q0, hq0mem, hfr.1, hfr.2.1, hfr.2.2.1,
            fun _ => hfr.2.2.2 hoid⟩
        · rw [if_neg hq'o] at hq'eq
          subst hq'eq
          exact hps q' hq'
      · rw [if_neg h2]
        exact ⟨⟨hpid, hpname, hpwallet⟩, hps⟩
  · rw [if_neg hc]
    exact ⟨⟨hpid, hpname, hpwallet⟩, hps⟩

/-- Every entry of the player snapshot taken after the position and food
passes is frame-related to an original player. -/
theorem players2_snap (g : GameState) (pid : String) (p0 : Player)
    (hid0 : p0.id = pid) (hp0 : p0 ∈ g.players) (pa pb : Player)
    (hpa : pa.id = pid ∧ pa.name = p0.name ∧
      pa.walletAddress = p0.walletAddress)
    (hpb : pb.id = pid ∧ pb.name = p0.name ∧
      pb.walletAddress = p0.walletAddress) :
    ∀ o ∈ (g.players.map (fun q => if q.id = pid then pa else q)).map
        (fun q => if q.id = pid then pb else q),
      ∃ q0 ∈ g.players, playerFrame pid q0 o := by
  intro o ho
  rw [List.map_map] at ho
  obtain ⟨q, hq, hqeq⟩ := List.mem_map.mp ho
  simp only [Function.comp] at hqeq
  by_cases hqid : q.id = pid
  · rw [if_pos hqid, if_pos hpa.1] at hqeq
    subst hqeq
    exact ⟨p0, hp0, hid0.trans hpb.1.symm, hpb.2.1.symm, hpb.2.2.symm,
      fun hcon => absurd hpb.1 hcon⟩
  · rw [if_neg hqid, if_neg hqid] at hqeq
    subst hqeq
    exact ⟨q, hq, rfl, rfl, rfl, fun _ => ⟨rfl, rfl⟩⟩

/-- The whole player pass preserves the frame invariant on the player map. -/
theorem playerPass_frame (g : GameState) (pid : String) (p0 : Player)
    (hid0 : p0.id = pid) (hp0 : p0 ∈ g.players) (snap : List Player)
    (hsnap : ∀ o ∈ snap, ∃ q0 ∈ g.players, playerFrame pid q0 o)
    (pm : Player) (hpm : pm.id = pid ∧ pm.name = p0.name ∧
      pm.walletAddress = p0.walletAddress)
    (ps : List Player)
    (hps : ∀ q ∈ ps, ∃ q0 ∈ g.players, playerFrame pid q0 q)
    (ev : List Event) :
    ∀ q ∈ (snap.foldl (eatPlayerStep pid) (pm, ps, ev)).2.1,
      ∃ q0 ∈ g.players, playerFrame pid q0 q :=
  (foldl_inv (eatPlayerStep pid)
    (fun acc => (acc.1.id = pid ∧ acc.1.name = p0.name ∧
        acc.1.walletAddress = p0.walletAddress) ∧
      ∀ q ∈ acc.2.1, ∃ q0 ∈ g.players, playerFrame pid q0 q)
    snap
    (fun b hb acc hacc =>
      eatPlayerStep_frame g pid p0 hid0 hp0 b (hsnap b hb) acc hacc)
    (pm, ps, ev) ⟨hpm, hps⟩).2

/-- C10 (frame): a move only repositions and rescores the mover, rescores
players hit by consumption, and deletes consumed entities — every surviving
player is an original player with id, name and wallet intact (and position
intact unless it is the mover), and every surviving food item is exactly an
item of the pre-move food list. -/
theorem move_frame (g : GameState) (pid : String) (mx my : JVal) :
    (∀ q ∈ (moveHandler g pid mx my).1.players,
      ∃ q0 ∈ g.players, playerFrame pid q0 q) ∧
    (∀ f ∈ (moveHandler g pid mx my).1.food, f ∈ g.food) := by
  cases hf : findPlayer g.players pid with
  | none =>
    unfold moveHandler
    rw [hf]
    constructor
    · intro q hq
      exact ⟨q, hq, rfl, rfl, rfl, fun _ => ⟨rfl, rfl⟩⟩
    · intro f hfm
      exact hfm
  | some p0 =>
    have hid0 : p0.id = pid := findPlayer_some_id hf
    have hp0 : p0 ∈ g.players := findPlayer_some_mem hf
    rw [moveHandler_some g pid mx my p0 hf]
    dsimp only
    constructor
    · refine playerPass_frame g pid p0 hid0 hp0 _ ?_ _ ?_ _ ?_ _
      · refine players2_snap g pid p0 hid0 hp0 _ _ ?_ ?_
        · exact ⟨hid0, rfl, rfl⟩
        · exact ⟨hid0, rfl, rfl⟩
      · exact ⟨hid0, rfl, rfl⟩
      · refine players2_snap g pid p0 hid0 hp0 _ _ ?_ ?_
        · exact ⟨hid0, rfl, rfl⟩
        · exact ⟨hid0, rfl, rfl⟩
    · exact foodPass_sub mx my p0.walletAddress g.food p0.score g.food []

/-- Witness for `move_frame`: the surviving opponent in `gTriple` is the
original score-10 player with name, wallet and position intact. -/
theorem move_frame_witness :
    ∃ q0 ∈ gTriple.players, playerFrame "p1" q0 { pBob with score := 15 } :=
  (move_frame gTriple "p1" (some 500) (some 500)).1
    { pBob with score := 15 } (by decide)
